import Mathlib

/-!
Verification of the kube-sherlock query orchestrator and resource gatherer.

The development shallowly embeds the Go sources:
  * `backend/internal/kubernetes` (Service.GatherResources, Service.GetPodLogs),
  * `backend/internal/mcp` (MCPService.registerTools, MCPService.ExecuteTool and
    the five tool handlers),
  * `backend/internal/ai` (Service.QueryWithMCP, including its multi-stage
    response-parsing fallback chain).

External collaborators are modelled as explicit parameters: the cluster API is a
structure of list/log functions, and the model provider is a structure of
response functions.  Go's `encoding/json` unmarshalling and the handful of
`strings` helpers the code uses are reimplemented here over `List Char`
(inputs of interest are ASCII, so byte indices and character indices agree).
-/

namespace KubeSherlock

/-! ## Go `strings` helpers (ASCII model) -/

/-- Whitespace predicate used by `strings.TrimSpace` (ASCII subset). -/
def isSpaceChar (c : Char) : Bool :=
  c = ' ' || c = '\t' || c = '\n' || c = '\r' || c = Char.ofNat 11 || c = Char.ofNat 12

/-- Go `strings.TrimSpace`. -/
def trimSpace (s : String) : String :=
  String.mk (((s.data.dropWhile isSpaceChar).reverse.dropWhile isSpaceChar).reverse)

/-- First index of `pat` inside `hay` (Go `strings.Index` without the -1 encoding). -/
def subIndex? : List Char → List Char → Option Nat
  | _, [] => some 0
  | [], _ :: _ => none
  | c :: rest, p :: ps =>
    if List.isPrefixOf (p :: ps) (c :: rest) then some 0
    else (subIndex? rest (p :: ps)).map (· + 1)

/-- Go `strings.Contains`. -/
def strContains (s pat : String) : Bool :=
  (subIndex? s.data pat.data).isSome

/-- Go `strings.Index` (−1 when absent). -/
def strIndex (s pat : String) : Int :=
  match subIndex? s.data pat.data with
  | some n => (n : Int)
  | none => -1

/-- Last index of `pat` inside `hay` (Go `strings.LastIndex` without the -1 encoding). -/
def lastSubIndex? (hay pat : List Char) : Option Nat :=
  (((List.range (hay.length + 1)).filter
      (fun i => List.isPrefixOf pat (hay.drop i)))).getLast?

/-- Go `strings.LastIndex` (−1 when absent). -/
def strLastIndex (s pat : String) : Int :=
  match lastSubIndex? s.data pat.data with
  | some n => (n : Int)
  | none => -1

/-- Go slice expression `s[a:b]` on an ASCII string. -/
def substrChars (s : String) (a b : Nat) : String :=
  String.mk ((s.data.drop a).take (b - a))

/-! ## JSON values and a parser modelling Go `encoding/json` syntax

Numbers are modelled by their truncated integer value (Go decodes into
`float64` and the code converts count-like parameters with `int64(v)`,
truncating toward zero); no claim depends on fractional numerics. -/

inductive Json where
  | null
  | bool (b : Bool)
  | num (n : Int)
  | str (s : String)
  | arr (elems : List Json)
  | obj (fields : List (String × Json))

/-- JSON structural whitespace. -/
def isJsonWs (c : Char) : Bool :=
  c = ' ' || c = '\t' || c = '\n' || c = '\r'

def skipWs (cs : List Char) : List Char :=
  cs.dropWhile isJsonWs

def hexVal (c : Char) : Option Nat :=
  if '0' ≤ c ∧ c ≤ '9' then some (c.toNat - 48)
  else if 'a' ≤ c ∧ c ≤ 'f' then some (c.toNat - 87)
  else if 'A' ≤ c ∧ c ≤ 'F' then some (c.toNat - 55)
  else none

/-- Parse the body of a JSON string after the opening quote, returning the
decoded characters and the remainder after the closing quote.  `\uXXXX`
escapes are decoded as single code points (surrogate pairs are not combined;
no claim involves them). -/
def parseStringChars : List Char → Option (List Char × List Char)
  | [] => none
  | '"' :: rest => some ([], rest)
  | '\\' :: '"' :: r => (parseStringChars r).map (fun p => ('"' :: p.1, p.2))
  | '\\' :: '\\' :: r => (parseStringChars r).map (fun p => ('\\' :: p.1, p.2))
  | '\\' :: '/' :: r => (parseStringChars r).map (fun p => ('/' :: p.1, p.2))
  | '\\' :: 'n' :: r => (parseStringChars r).map (fun p => ('\n' :: p.1, p.2))
  | '\\' :: 't' :: r => (parseStringChars r).map (fun p => ('\t' :: p.1, p.2))
  | '\\' :: 'r' :: r => (parseStringChars r).map (fun p => ('\r' :: p.1, p.2))
  | '\\' :: 'b' :: r => (parseStringChars r).map (fun p => (Char.ofNat 8 :: p.1, p.2))
  | '\\' :: 'f' :: r => (parseStringChars r).map (fun p => (Char.ofNat 12 :: p.1, p.2))
  | '\\' :: 'u' :: h1 :: h2 :: h3 :: h4 :: r =>
    match hexVal h1, hexVal h2, hexVal h3, hexVal h4 with
    | some a, some b, some c, some d =>
      (parseStringChars r).map
        (fun p => (Char.ofNat (((a * 16 + b) * 16 + c) * 16 + d) :: p.1, p.2))
    | _, _, _, _ => none
  | '\\' :: _ => none
  | c :: r =>
    if c.toNat < 32 then none
    else (parseStringChars r).map (fun p => (c :: p.1, p.2))

def digitsToNat (ds : List Char) : Nat :=
  ds.foldl (fun a c => a * 10 + (c.toNat - 48)) 0

/-- Parse a JSON number; the value kept is the (signed) integer part. -/
def parseNumber (cs : List Char) : Option (Int × List Char) :=
  let signed : Bool × List Char :=
    match cs with
    | '-' :: r => (true, r)
    | _ => (false, cs)
  let ds := signed.2.takeWhile Char.isDigit
  let rest1 := signed.2.dropWhile Char.isDigit
  if ds.isEmpty then none
  else if 1 < ds.length ∧ ds.head? = some '0' then none
  else
    let intPart : Int := (digitsToNat ds : Int)
    let v : Int := if signed.1 then -intPart else intPart
    let frac : Bool × List Char :=
      match rest1 with
      | '.' :: r =>
        let fs := r.takeWhile Char.isDigit
        (!fs.isEmpty, r.dropWhile Char.isDigit)
      | _ => (true, rest1)
    let expo : Bool × List Char :=
      match frac.2 with
      | 'e' :: r | 'E' :: r =>
        let r2 : List Char :=
          match r with
          | '+' :: r2 => r2
          | '-' :: r2 => r2
          | _ => r
        let es := r2.takeWhile Char.isDigit
        (!es.isEmpty, r2.dropWhile Char.isDigit)
      | _ => (true, frac.2)
    if frac.1 ∧ expo.1 then some (v, expo.2) else none

/-- The left-brace character, written via its code point. -/
def lbraceChar : Char := Char.ofNat 123

/-- The right-brace character, written via its code point. -/
def rbraceChar : Char := Char.ofNat 125

mutual

/-- Fuel-indexed parser for one JSON value. -/
def parseJson : Nat → List Char → Option (Json × List Char)
  | 0, _ => none
  | Nat.succ fuel, cs =>
    match skipWs cs with
    | 'n' :: 'u' :: 'l' :: 'l' :: r => some (.null, r)
    | 't' :: 'r' :: 'u' :: 'e' :: r => some (.bool true, r)
    | 'f' :: 'a' :: 'l' :: 's' :: 'e' :: r => some (.bool false, r)
    | '"' :: r => (parseStringChars r).map (fun p => (.str (String.mk p.1), p.2))
    | '[' :: r => (parseArrayItems fuel r).map (fun p => (.arr p.1, p.2))
    | c :: r =>
      if c = lbraceChar then (parseObjItems fuel r).map (fun p => (.obj p.1, p.2))
      else if c = '-' ∨ c.isDigit then
        (parseNumber (c :: r)).map (fun p => (.num p.1, p.2))
      else none
    | [] => none

/-- Items of an array after the opening bracket (empty array allowed). -/
def parseArrayItems : Nat → List Char → Option (List Json × List Char)
  | 0, _ => none
  | Nat.succ fuel, cs =>
    match skipWs cs with
    | ']' :: r => some ([], r)
    | rest => parseArrayVals fuel rest

/-- One or more comma-separated array values up to the closing bracket. -/
def parseArrayVals : Nat → List Char → Option (List Json × List Char)
  | 0, _ => none
  | Nat.succ fuel, cs =>
    match parseJson fuel cs with
    | none => none
    | some (v, cs1) =>
      match skipWs cs1 with
      | ',' :: cs2 => (parseArrayVals fuel cs2).map (fun p => (v :: p.1, p.2))
      | ']' :: cs2 => some ([v], cs2)
      | _ => none

/-- Fields of an object after the opening brace (empty object allowed). -/
def parseObjItems : Nat → List Char → Option (List (String × Json) × List Char)
  | 0, _ => none
  | Nat.succ fuel, cs =>
    match skipWs cs with
    | c :: r => if c = rbraceChar then some ([], r) else parseObjFields fuel (c :: r)
    | [] => none

/-- One or more comma-separated object fields up to the closing brace. -/
def parseObjFields : Nat → List Char → Option (List (String × Json) × List Char)
  | 0, _ => none
  | Nat.succ fuel, cs =>
    match skipWs cs with
    | '"' :: r =>
      match parseStringChars r with
      | none => none
      | some (k, cs1) =>
        match skipWs cs1 with
        | ':' :: cs2 =>
          match parseJson fuel cs2 with
          | none => none
          | some (v, cs3) =>
            match skipWs cs3 with
            | ',' :: cs4 =>
              (parseObjFields fuel cs4).map
                (fun p => ((String.mk k, v) :: p.1, p.2))
            | c :: cs4 =>
              if c = rbraceChar then some ([(String.mk k, v)], cs4) else none
            | [] => none
        | _ => none
    | _ => none

end

/-- Parse a whole input as a single JSON value (Go `json.Unmarshal` syntax:
only trailing whitespace may follow the value). -/
def parseJsonTop (s : String) : Option Json :=
  match parseJson (4 * (s.length + 2)) s.data with
  | some (v, rest) => if (skipWs rest).isEmpty then some v else none
  | none => none

/-! ## The orchestrator's decision struct and Go unmarshalling into it

`QueryWithMCP` decodes the model text into
`struct { Action, Tool string; Arguments map[string]interface{}; Response string }`.
Unmarshalling succeeds on a JSON `null` (leaving zero values) or on an object
whose recognized fields have the right types (`null` leaves a field untouched);
unknown object keys are ignored; any other top-level value is an error.
Field keys are matched case-sensitively here (the witnesses below only use
exact lower-case keys, for which Go behaves identically). -/

structure AIAction where
  action : String
  tool : String
  arguments : List (String × Json)
  response : String

/-- The zero value of the decision struct. -/
def AIAction.zero : AIAction := ⟨"", "", [], ""⟩

/-- Apply one JSON object field to the decision struct, Go-style:
later duplicate keys overwrite, type mismatches are errors, `null` is a no-op,
unrecognized keys are skipped. -/
def applyField (a : AIAction) : String × Json → Option AIAction
  | ("action", .str s) => some { a with action := s }
  | ("action", .null) => some a
  | ("action", _) => none
  | ("tool", .str s) => some { a with tool := s }
  | ("tool", .null) => some a
  | ("tool", _) => none
  | ("response", .str s) => some { a with response := s }
  | ("response", .null) => some a
  | ("response", _) => none
  | ("arguments", .obj m) => some { a with arguments := m }
  | ("arguments", .null) => some a
  | ("arguments", _) => none
  | (_, _) => some a

/-- Decode a parsed JSON value into the decision struct. -/
def decodeAIAction : Json → Option AIAction
  | .null => some AIAction.zero
  | .obj fields => fields.foldlM applyField AIAction.zero
  | _ => none

/-- Go `json.Unmarshal(text, &aiAction)` as used by `QueryWithMCP`. -/
def goUnmarshal (s : String) : Option AIAction :=
  (parseJsonTop s).bind decodeAIAction

/-! ## The response-parsing fallback chain of `Service.QueryWithMCP`

Translated from `QueryWithMCP` (ai package): the code first replaces the text
to parse with the contents of a ```json fenced block when one is present and
closed, then unmarshals that text; on failure it retries on the substring from
the first brace to the last brace of the *original* text; if everything fails
it returns the original text as a direct answer. -/

inductive ParseResult where
  | parsed (a : AIAction)
  | fallback (text : String)

/-- The fenced-block pre-processing step:
`jsonText := responseText`, and when the text contains "```json" with a later
closing fence, `jsonText` becomes the trimmed substring between the fences. -/
def extractFencedJson (responseText : String) : String :=
  if strContains responseText "```json" then
    let start : Nat :=
      (match subIndex? responseText.data "```json".data with
       | some n => n
       | none => 0) + 7
    match subIndex? (responseText.data.drop start) "```".data with
    | some e => trimSpace (String.mk ((responseText.data.drop start).take e))
    | none => responseText
  else responseText

/-- The decision-parsing portion of `QueryWithMCP`, parameterized by the
unmarshalling function. -/
def parseDecision (unmarshal : String → Option AIAction) (responseText : String) :
    ParseResult :=
  let jsonText := extractFencedJson responseText
  match unmarshal jsonText with
  | some a => .parsed a
  | none =>
    if strContains responseText "\x7b" ∧ strContains responseText "\x7d" then
      let start := strIndex responseText "\x7b"
      let e := strLastIndex responseText "\x7d"
      if start ≠ -1 ∧ e ≠ -1 ∧ e > start then
        let possibleJSON := substrChars responseText start.toNat (e.toNat + 1)
        match unmarshal possibleJSON with
        | some a => .parsed a
        | none => .fallback responseText
      else .fallback responseText
    else .fallback responseText

/-- The fallback chain as the specification words it (its §4.5): stage 1
parses the ENTIRE text; stage 2, only on failure, parses an extracted fenced
block; stage 3 parses from the first brace to the last brace; stage 4 returns
the original text verbatim.  Stated for refinement comparison with
`parseDecision`. -/
def specParseDecision (unmarshal : String → Option AIAction) (responseText : String) :
    ParseResult :=
  match unmarshal responseText with
  | some a => .parsed a
  | none =>
    let fenced := extractFencedJson responseText
    match unmarshal fenced with
    | some a => .parsed a
    | none =>
      if strContains responseText "\x7b" ∧ strContains responseText "\x7d" then
        let start := strIndex responseText "\x7b"
        let e := strLastIndex responseText "\x7d"
        if start ≠ -1 ∧ e ≠ -1 ∧ e > start then
          match unmarshal (substrChars responseText start.toNat (e.toNat + 1)) with
          | some a => .parsed a
          | none => .fallback responseText
        else .fallback responseText
      else .fallback responseText

/-! ## The kubernetes layer: `Service.GatherResources` and `Service.GetPodLogs`

The cluster API (client-go) is external to the repository and is modelled as a
structure of list/log functions.  Non-secret resource kinds carry opaque
serialized items (`List String`); secrets carry their `Data`/`StringData`
payload maps so that redaction is observable. -/

/-- A `v1.Secret` item restricted to the fields the gatherer touches. -/
structure SecretItem where
  name : String
  data : List (String × String)
  stringData : List (String × String)
deriving DecidableEq

/-- A value stored in the gather result map: a listed collection, a listed
secret collection, or an error text. -/
inductive GatherValue where
  | raw (items : List String)
  | secrets (items : List SecretItem)
  | errText (msg : String)
deriving DecidableEq

/-- The cluster API handle (clientset): each field models one typed list call
`(namespace, labelSelector) ↦ result`, plus the log-stream call
`(namespace, pod, container, tailLines) ↦ chunks read before EOF/stream end`
and the ambient data used for gather metadata. -/
structure Cluster where
  listPods : String → String → Except String (List String)
  listDeployments : String → String → Except String (List String)
  listServices : String → String → Except String (List String)
  listConfigMaps : String → String → Except String (List String)
  listSecrets : String → String → Except String (List SecretItem)
  listEvents : String → String → Except String (List String)
  listReplicaSets : String → String → Except String (List String)
  openLogStream : String → String → String → Option Int → Except String (List String)
  now : String
  contextName : String

structure GatherMetadata where
  timestamp : String
  clusterContext : String
  namespaceName : String
deriving DecidableEq

/-- `GatherResourcesResponse`: the resources map (Go `map[string]interface{}`,
modelled as a lookup function) plus metadata. -/
structure GatherResponse where
  resources : String → Option GatherValue
  metadata : GatherMetadata

/-- The redaction performed on each secret before it is stored:
`Data` and `StringData` are set to empty maps. -/
def redactSecret (s : SecretItem) : SecretItem :=
  { s with data := [], stringData := [] }

/-- The body of one iteration of the `GatherResources` loop: the single
key/value pair the `switch resourceType` statement stores for kind `k`
(a `switch` on a string is a chain of equality tests). -/
def entryOf (c : Cluster) (ns sel : String) (k : String) : String × GatherValue :=
  if k = "pods" then
    match c.listPods ns sel with
    | .ok xs => ("pods", .raw xs)
    | .error e => ("pods_error", .errText e)
  else if k = "deployments" then
    match c.listDeployments ns sel with
    | .ok xs => ("deployments", .raw xs)
    | .error e => ("deployments_error", .errText e)
  else if k = "services" then
    match c.listServices ns sel with
    | .ok xs => ("services", .raw xs)
    | .error e => ("services_error", .errText e)
  else if k = "configmaps" then
    match c.listConfigMaps ns sel with
    | .ok xs => ("configmaps", .raw xs)
    | .error e => ("configmaps_error", .errText e)
  else if k = "secrets" then
    match c.listSecrets ns sel with
    | .ok xs => ("secrets", .secrets (xs.map redactSecret))
    | .error e => ("secrets_error", .errText e)
  else if k = "events" then
    match c.listEvents ns sel with
    | .ok xs => ("events", .raw xs)
    | .error e => ("events_error", .errText e)
  else if k = "replicasets" then
    match c.listReplicaSets ns sel with
    | .ok xs => ("replicasets", .raw xs)
    | .error e => ("replicasets_error", .errText e)
  else (k ++ "_error", .errText ("unsupported resource type: " ++ k))

/-- The kinds handled by a non-default case of the `switch`. -/
def supportedKinds : List String :=
  ["pods", "deployments", "services", "configmaps", "secrets", "events", "replicasets"]

/-- Go map insertion (`resources[key] = v`). -/
def mapInsert (m : String → Option GatherValue) (key : String) (v : GatherValue) :
    String → Option GatherValue :=
  fun x => if x = key then some v else m x

/-- One loop iteration of `GatherResources`: store the entry for kind `k`. -/
def gatherStep (c : Cluster) (ns sel : String)
    (m : String → Option GatherValue) (k : String) : String → Option GatherValue :=
  mapInsert m (entryOf c ns sel k).1 (entryOf c ns sel k).2

/-- `Service.GatherResources`: defaults the namespace, stores one entry per
requested kind (per-kind isolation), and always returns a nil Go error. -/
def GatherResources (c : Cluster) (resourceTypes : List String)
    (namespaceArg labelSelector : String) : GatherResponse × Option String :=
  let ns := if namespaceArg = "" then "default" else namespaceArg
  let resources :=
    resourceTypes.foldl (gatherStep c ns labelSelector) (fun _ => none)
  ({ resources := resources
     metadata := { timestamp := c.now, clusterContext := c.contextName, namespaceName := ns } },
   none)

/-- `Service.GetPodLogs`: sets `TailLines` only for a positive line count,
returns `("", descriptive error)` when the stream cannot be opened, and the
concatenation of everything read (with a nil error) otherwise — read errors
after a successful open merely terminate the read loop. -/
def GetPodLogs (c : Cluster) (namespaceArg podName containerName : String)
    (lines : Int) : String × Option String :=
  let tailLines : Option Int := if lines > 0 then some lines else none
  match c.openLogStream namespaceArg podName containerName tailLines with
  | .error e => ("", some ("failed to get pod logs: " ++ e))
  | .ok chunks => (String.join chunks, none)

/-! ## The mcp layer: tool catalog, handlers and `MCPService.ExecuteTool` -/

/-- One property of a tool's input schema (`{"type":..., "description":...}`). -/
structure ParamDesc where
  type : String
  description : String
deriving DecidableEq

/-- `ToolSchema`. -/
structure ToolSchema where
  type : String
  properties : List (String × ParamDesc)
  required : List String
deriving DecidableEq

/-- `Tool`. -/
structure Tool where
  name : String
  description : String
  inputSchema : ToolSchema
deriving DecidableEq

/-- `ToolContent`. -/
structure ToolContent where
  type : String
  text : String
deriving DecidableEq

/-- `ToolResult`. -/
structure ToolResult where
  content : List ToolContent
  isError : Bool := false
deriving DecidableEq

/-- `ToolRequest`. -/
structure ToolRequest where
  name : String
  arguments : List (String × Json)

/-- The catalog built by `MCPService.registerTools` (the `m.tools` map,
modelled as an association list keyed by tool name). -/
def registeredTools : List (String × Tool) :=
  [("get_pod_health",
    { name := "get_pod_health"
      description := "Get the health status of pods in a namespace"
      inputSchema :=
        { type := "object"
          properties :=
            [("namespace",
              ⟨"string", "Kubernetes namespace to check (default: default)"⟩),
             ("labelSelector",
              ⟨"string", "Label selector to filter pods (optional)"⟩)]
          required := [] } }),
   ("get_deployment_status",
    { name := "get_deployment_status"
      description := "Get the status of deployments in a namespace"
      inputSchema :=
        { type := "object"
          properties :=
            [("namespace",
              ⟨"string", "Kubernetes namespace to check (default: default)"⟩),
             ("deploymentName",
              ⟨"string", "Specific deployment name (optional)"⟩)]
          required := [] } }),
   ("get_service_endpoints",
    { name := "get_service_endpoints"
      description := "Get the endpoints and status of services in a namespace"
      inputSchema :=
        { type := "object"
          properties :=
            [("namespace",
              ⟨"string", "Kubernetes namespace to check (default: default)"⟩),
             ("serviceName",
              ⟨"string", "Specific service name (optional)"⟩)]
          required := [] } }),
   ("get_recent_events",
    { name := "get_recent_events"
      description := "Get recent Kubernetes events in a namespace"
      inputSchema :=
        { type := "object"
          properties :=
            [("namespace",
              ⟨"string", "Kubernetes namespace to check (default: default)"⟩),
             ("resourceName",
              ⟨"string", "Filter events for specific resource (optional)"⟩)]
          required := [] } }),
   ("get_pod_logs",
    { name := "get_pod_logs"
      description := "Get logs from a specific pod"
      inputSchema :=
        { type := "object"
          properties :=
            [("namespace", ⟨"string", "Kubernetes namespace (default: default)"⟩),
             ("podName", ⟨"string", "Name of the pod to get logs from"⟩),
             ("containerName", ⟨"string", "Container name (optional)"⟩),
             ("lines", ⟨"number", "Number of lines to retrieve (default: 100)"⟩)]
          required := ["podName"] } })]

/-- `MCPService`: the kubernetes service handle may be nil. -/
structure MCPSvc where
  k8s : Option Cluster

/-- Go map lookup in an association list built with later-overwrites-earlier
insertion discipline (keys of `registeredTools` are distinct, so plain first
match is the map lookup). -/
def lookupArg (args : List (String × Json)) (key : String) : Option Json :=
  (args.reverse.find? (fun kv => kv.1 = key)).map (·.2)

/-- `getStringParam`: a present string value, otherwise the default. -/
def getStringParam (args : List (String × Json)) (key dflt : String) : String :=
  match lookupArg args key with
  | some (.str s) => s
  | _ => dflt

/-- `getIntParam`: a present numeric value converted to int64, otherwise the
default (JSON numbers arrive from unmarshalling; the float64 case truncates). -/
def getIntParam (args : List (String × Json)) (key : String) (dflt : Int) : Int :=
  match lookupArg args key with
  | some (.num n) => n
  | _ => dflt

/-- The `ToolResult` each handler returns when `m.k8sService == nil`. -/
def k8sUnavailableResult : ToolResult × Option String :=
  (⟨[⟨"text", "Kubernetes service not available. Please ensure cluster connectivity."⟩],
    true⟩,
   some "kubernetes service not available")

/-- Model of `json.MarshalIndent` applied to one value of the resources map
(a missing key marshals as "null"); the exact rendering is irrelevant to every
claim, only its determinism is used. -/
def marshalGatherValue : Option GatherValue → String
  | none => "null"
  | some (.raw items) => "[" ++ String.intercalate ", " items ++ "]"
  | some (.secrets items) =>
    "[" ++
      String.intercalate ", "
        (items.map (fun s =>
          "secret " ++ s.name ++ " data=[" ++
            String.intercalate ", " (s.data.map (fun kv => kv.1 ++ ":" ++ kv.2)) ++
          "] stringData=[" ++
            String.intercalate ", " (s.stringData.map (fun kv => kv.1 ++ ":" ++ kv.2)) ++
          "]")) ++
    "]"
  | some (.errText e) => "error " ++ e

/-- `MCPService.getPodHealth`. -/
def getPodHealth (m : MCPSvc) (args : List (String × Json)) :
    ToolResult × Option String :=
  let ns := getStringParam args "namespace" "default"
  let labelSelector := getStringParam args "labelSelector" ""
  match m.k8s with
  | none => k8sUnavailableResult
  | some k8s =>
    let gathered := GatherResources k8s ["pods"] ns labelSelector
    match gathered.2 with
    | some e =>
      (⟨[⟨"text", "Error gathering pod information: " ++ e⟩], true⟩, some e)
    | none =>
      let podsData := marshalGatherValue (gathered.1.resources "pods")
      (⟨[⟨"text",
          "Pod health information for namespace '" ++ ns ++ "':\n\n" ++ podsData⟩],
        false⟩,
       none)

/-- `MCPService.getDeploymentStatus`. -/
def getDeploymentStatus (m : MCPSvc) (args : List (String × Json)) :
    ToolResult × Option String :=
  let ns := getStringParam args "namespace" "default"
  let deploymentName := getStringParam args "deploymentName" ""
  match m.k8s with
  | none => k8sUnavailableResult
  | some k8s =>
    let labelSelector := if deploymentName ≠ "" then "app=" ++ deploymentName else ""
    let gathered := GatherResources k8s ["deployments"] ns labelSelector
    match gathered.2 with
    | some e =>
      (⟨[⟨"text", "Error gathering deployment information: " ++ e⟩], true⟩, some e)
    | none =>
      let deploymentsData := marshalGatherValue (gathered.1.resources "deployments")
      (⟨[⟨"text",
          "Deployment status for namespace '" ++ ns ++ "':\n\n" ++ deploymentsData⟩],
        false⟩,
       none)

/-- `MCPService.getServiceEndpoints`. -/
def getServiceEndpoints (m : MCPSvc) (args : List (String × Json)) :
    ToolResult × Option String :=
  let ns := getStringParam args "namespace" "default"
  let serviceName := getStringParam args "serviceName" ""
  match m.k8s with
  | none => k8sUnavailableResult
  | some k8s =>
    let labelSelector := if serviceName ≠ "" then "app=" ++ serviceName else ""
    let gathered := GatherResources k8s ["services"] ns labelSelector
    match gathered.2 with
    | some e =>
      (⟨[⟨"text", "Error gathering service information: " ++ e⟩], true⟩, some e)
    | none =>
      let servicesData := marshalGatherValue (gathered.1.resources "services")
      (⟨[⟨"text",
          "Service endpoints for namespace '" ++ ns ++ "':\n\n" ++ servicesData⟩],
        false⟩,
       none)

/-- `MCPService.getRecentEvents`. -/
def getRecentEvents (m : MCPSvc) (args : List (String × Json)) :
    ToolResult × Option String :=
  let ns := getStringParam args "namespace" "default"
  let resourceName := getStringParam args "resourceName" ""
  match m.k8s with
  | none => k8sUnavailableResult
  | some k8s =>
    let labelSelector :=
      if resourceName ≠ "" then "involvedObject.name=" ++ resourceName else ""
    let gathered := GatherResources k8s ["events"] ns labelSelector
    match gathered.2 with
    | some e => (⟨[⟨"text", "Error gathering events: " ++ e⟩], true⟩, some e)
    | none =>
      let eventsData := marshalGatherValue (gathered.1.resources "events")
      (⟨[⟨"text",
          "Recent events for namespace '" ++ ns ++ "':\n\n" ++ eventsData⟩],
        false⟩,
       none)

/-- Decimal rendering of the line count used in the log header (`%d`). -/
def intToDecimal (n : Int) : String := toString n

/-- `MCPService.getPodLogs` (the tool handler). -/
def getPodLogsTool (m : MCPSvc) (args : List (String × Json)) :
    ToolResult × Option String :=
  let ns := getStringParam args "namespace" "default"
  let podName := getStringParam args "podName" ""
  let containerName := getStringParam args "containerName" ""
  let lines := getIntParam args "lines" 100
  if podName = "" then
    (⟨[⟨"text", "Pod name is required for getting logs"⟩], true⟩,
     some "pod name is required")
  else
    match m.k8s with
    | none => k8sUnavailableResult
    | some k8s =>
      let logsResult := GetPodLogs k8s ns podName containerName lines
      match logsResult.2 with
      | some e =>
        (⟨[⟨"text", "Error getting pod logs: " ++ e⟩], true⟩, some e)
      | none =>
        (⟨[⟨"text",
            "Logs for pod '" ++ podName ++ "' in namespace '" ++ ns ++
              "' (last " ++ intToDecimal lines ++ " lines):\n\n" ++ logsResult.1⟩],
          false⟩,
         none)

/-- The `switch request.Name` dispatch of `ExecuteTool` (a `switch` on a
string is a chain of equality tests): the handler chosen for each name,
`none` for the `default` (registered-but-not-implemented) arm. -/
def dispatch (name : String) :
    Option (MCPSvc → List (String × Json) → ToolResult × Option String) :=
  if name = "get_pod_health" then some getPodHealth
  else if name = "get_deployment_status" then some getDeploymentStatus
  else if name = "get_service_endpoints" then some getServiceEndpoints
  else if name = "get_recent_events" then some getRecentEvents
  else if name = "get_pod_logs" then some getPodLogsTool
  else none

/-- Go map lookup `m.tools[request.Name]` on the association-list model of the
tool catalog. -/
def lookupTool : List (String × Tool) → String → Option Tool
  | [], _ => none
  | (k, t) :: rest, name => if k = name then some t else lookupTool rest name

/-- `MCPService.ExecuteTool`: unknown names yield an error result and a non-nil
Go error; known names dispatch through the switch. -/
def ExecuteTool (m : MCPSvc) (request : ToolRequest) : ToolResult × Option String :=
  match lookupTool registeredTools request.name with
  | none =>
    (⟨[⟨"text", "Unknown tool: " ++ request.name⟩], true⟩,
     some ("unknown tool: " ++ request.name))
  | some _ =>
    match dispatch request.name with
    | some h => h m request.arguments
    | none =>
      (⟨[⟨"text", "Tool " ++ request.name ++ " is registered but not implemented"⟩],
        true⟩,
       some ("tool not implemented: " ++ request.name))

/-! ## The ai layer: `Service.QueryWithMCP`

The Gemini model provider is external; it is modelled by two response
functions.  In the source both calls go through `model.GenerateContent` with
prompts built from, respectively, the query plus the serialized tool catalog,
and the query plus the concatenated tool output; the responses are therefore
modelled as functions of those semantic inputs.  A call either fails
(`Except.error`) or yields the list of text parts of the first candidate
(the empty list covers "no candidates or no parts"). -/

structure Gemini where
  firstCall : String → Except String (List String)
  analysisCall : String → String → Except String (List String)

/-- `QueryResponse` (wire shape `response/usedTool/toolUsed/rawData/error`). -/
structure QueryResponse where
  response : String
  usedTool : Bool
  toolUsed : String := ""
  rawData : String := ""
  error : String := ""
deriving DecidableEq

/-- The ai `Service`: the MCP service handle may be nil. -/
structure AIService where
  mcp : Option MCPSvc
  gemini : Gemini

/-- Concatenation of the text parts of a model response
(`responseText += string(text)`). -/
def joinParts (parts : List String) : String :=
  String.join parts

/-- Concatenation of a tool result's content blocks
(`toolOutput += content.Text + "\n"`). -/
def joinToolOutput (content : List ToolContent) : String :=
  String.join (content.map (fun c => c.text ++ "\n"))

/-- `Service.QueryWithMCP`.  Returns `Except.error` exactly where the Go code
returns a non-nil error to its caller. -/
def QueryWithMCP (s : AIService) (query : String) : Except String QueryResponse :=
  match s.mcp with
  | none => .error "MCP service not available"
  | some mcpSvc =>
    match s.gemini.firstCall query with
    | .error e => .error ("failed to process query: " ++ e)
    | .ok parts =>
      if parts.isEmpty then .error "no response generated"
      else
        let responseText := joinParts parts
        match parseDecision goUnmarshal responseText with
        | .fallback txt => .ok { response := txt, usedTool := false }
        | .parsed aiAction =>
          if aiAction.action = "use_tool" then
            let executed :=
              ExecuteTool mcpSvc ⟨aiAction.tool, aiAction.arguments⟩
            match executed.2 with
            | some err =>
              .ok { response := "Error executing tool " ++ aiAction.tool ++ ": " ++ err
                    usedTool := true
                    toolUsed := aiAction.tool
                    error := err }
            | none =>
              let toolOutput := joinToolOutput executed.1.content
              match s.gemini.analysisCall query toolOutput with
              | .error _ =>
                .ok { response := "Gathered data but failed to analyze: " ++ toolOutput
                      usedTool := true
                      toolUsed := aiAction.tool }
              | .ok analysisParts =>
                let analysisText := joinParts analysisParts
                .ok { response := analysisText
                      usedTool := true
                      toolUsed := aiAction.tool
                      rawData := toolOutput }
          else
            .ok { response := aiAction.response, usedTool := false }

/-! ## Sample data used by the witnesses -/

/-- A secret with non-empty sensitive payload fields. -/
def sampleSecret : SecretItem :=
  ⟨"db-credentials", [("password", "hunter2")], [("token", "abc")]⟩

/-- A healthy cluster whose secret listing is non-empty. -/
def sampleCluster : Cluster :=
  { listPods := fun _ _ => .ok ["pod-a"]
    listDeployments := fun _ _ => .ok []
    listServices := fun _ _ => .ok []
    listConfigMaps := fun _ _ => .ok []
    listSecrets := fun _ _ => .ok [sampleSecret]
    listEvents := fun _ _ => .ok []
    listReplicaSets := fun _ _ => .ok []
    openLogStream := fun _ _ _ _ => .ok ["line1\n", "line2\n"]
    now := "2024-01-01T00:00:00Z"
    contextName := "test-ctx" }

/-- A cluster whose pod listing fails. -/
def failingPodsCluster : Cluster :=
  { sampleCluster with listPods := fun _ _ => .error "connection refused" }

/-- Modelled from the spec: the TailLines semantics of the Kubernetes log API
(the API server is not part of this repository) — with a tail limit it serves
only the last `n` lines of the log, without one it serves the whole log. -/
def tailLogBackend (logLines : List String) : Option Int → List String
  | some n => logLines.drop (logLines.length - n.toNat)
  | none => logLines

/-- A cluster whose log-stream opening fails. -/
def failingLogCluster : Cluster :=
  { sampleCluster with openLogStream := fun _ _ _ _ => .error "pods \"web\" not found" }

/-- `sampleCluster` with its log stream served from `tailLogBackend` over the
given log lines. -/
def tailServingCluster (logLines : List String) : Cluster :=
  { sampleCluster with openLogStream := fun _ _ _ tl => .ok (tailLogBackend logLines tl) }

/-! ## Definitions used by the parser and orchestrator claims -/

/-- The brace-window fallback: the substring from the first left brace to the
last right brace, when both exist in the right order. -/
def braceSpan (text : String) : Option String :=
  if strContains text "\x7b" ∧ strContains text "\x7d" then
    let start := strIndex text "\x7b"
    let e := strLastIndex text "\x7d"
    if start ≠ -1 ∧ e ≠ -1 ∧ e > start then
      some (substrChars text start.toNat (e.toNat + 1))
    else none
  else none

/-- The fallback chain as the code actually stages it, written as an ordered
strategy list: replace the text with a closed ```json fenced block when one is
present, parse that; only if that fails, parse the brace window of the
original text; if everything fails, return the original text verbatim. -/
def amendedParseChain (unmarshal : String → Option AIAction) (text : String) :
    ParseResult :=
  match unmarshal (extractFencedJson text) with
  | some a => .parsed a
  | none =>
    match braceSpan text with
    | some sub =>
      match unmarshal sub with
      | some a => .parsed a
      | none => .fallback text
    | none => .fallback text

/-- A model output that is, in its entirety, a valid direct-answer decision
object, and that mentions a ```json fence (with a closing fence) inside its
answer text. -/
def c3Input : String :=
  "\x7b\"action\": \"answer\", \"response\": \"Example: ```json \x7b\x7d ``` done\"\x7d"

/-- The decision object encoded by the whole of `c3Input`. -/
def c3WholeAction : AIAction :=
  ⟨"answer", "", [], "Example: ```json \x7b\x7d ``` done"⟩

/-- An orchestrator service over `sampleCluster` whose first model call yields
the given text and whose analysis call yields the given outcome. -/
def mkSvc (firstText : String) (analysis : Except String (List String)) : AIService :=
  { mcp := some ⟨some sampleCluster⟩
    gemini :=
      { firstCall := fun _ => .ok [firstText]
        analysisCall := fun _ _ => analysis } }

/-- A first-call output selecting the pod-health tool. -/
def useToolText : String :=
  "\x7b\"action\": \"use_tool\", \"tool\": \"get_pod_health\", \"arguments\": \x7b\x7d\x7d"

/-- A first-call output selecting a tool that does not exist. -/
def unknownToolText : String :=
  "\x7b\"action\": \"use_tool\", \"tool\": \"no_such_tool\", \"arguments\": \x7b\x7d\x7d"

/-- The concatenated tool output of `get_pod_health` on `sampleCluster`. -/
def c6ToolOutput : String :=
  "Pod health information for namespace 'default':\n\n[pod-a]\n"

/-! ## Helper lemmas about the gatherer -/

/-- No supported kind has the shape `s ++ "_error"`: success keys and error
keys of the resources map can never collide. -/
lemma not_error_suffix (s t : String) (ht : t ∈ supportedKinds) :
    s ++ "_error" ≠ t := by
  intro h
  have hd : s.data ++ "_error".data = t.data := by
    rw [← String.data_append, h]
  have h2 : t.data.reverse = "_error".data.reverse ++ s.data.reverse := by
    rw [← hd, List.reverse_append]
  have h3 : t.data.reverse.take 6 = "_error".data.reverse := by
    rw [h2]
    exact List.take_left' (by decide)
  simp only [supportedKinds, List.mem_cons, List.not_mem_nil, or_false] at ht
  rcases ht with rfl | rfl | rfl | rfl | rfl | rfl | rfl <;> exact absurd h3 (by decide)

lemma string_append_cancel {a b t : String} (h : a ++ t = b ++ t) : a = b := by
  apply String.ext
  have hd := congrArg String.data h
  rw [String.data_append, String.data_append] at hd
  exact List.append_cancel_right hd

/-- The key stored for kind `k` is `k` itself (then `k` is supported) or
`k ++ "_error"`. -/
lemma entryOf_fst (c : Cluster) (ns sel k : String) :
    ((entryOf c ns sel k).1 = k ∧ k ∈ supportedKinds) ∨
      (entryOf c ns sel k).1 = k ++ "_error" := by
  unfold entryOf
  split_ifs with h1 h2 h3 h4 h5 h6 h7
  · subst h1
    cases hc : c.listPods ns sel <;> simp [hc, supportedKinds]
  · subst h2
    cases hc : c.listDeployments ns sel <;> simp [hc, supportedKinds]
  · subst h3
    cases hc : c.listServices ns sel <;> simp [hc, supportedKinds]
  · subst h4
    cases hc : c.listConfigMaps ns sel <;> simp [hc, supportedKinds]
  · subst h5
    cases hc : c.listSecrets ns sel <;> simp [hc, supportedKinds]
  · subst h6
    cases hc : c.listEvents ns sel <;> simp [hc, supportedKinds]
  · subst h7
    cases hc : c.listReplicaSets ns sel <;> simp [hc, supportedKinds]
  · exact Or.inr rfl

/-- Distinct kinds store distinct keys. -/
lemma entryOf_fst_inj (c : Cluster) (ns sel : String) {k₁ k₂ : String}
    (h : (entryOf c ns sel k₁).1 = (entryOf c ns sel k₂).1) : k₁ = k₂ := by
  rcases entryOf_fst c ns sel k₁ with ⟨e1, s1⟩ | e1 <;>
    rcases entryOf_fst c ns sel k₂ with ⟨e2, s2⟩ | e2
  · rw [e1, e2] at h
    exact h
  · rw [e1, e2] at h
    exact absurd h.symm (not_error_suffix _ _ s1)
  · rw [e1, e2] at h
    exact absurd h (not_error_suffix _ _ s2)
  · rw [e1, e2] at h
    exact string_append_cancel h

/-- Keys not written by any kind in the list are untouched by the loop. -/
lemma gather_foldl_untouched (c : Cluster) (ns sel : String) :
    ∀ (kinds : List String) (m : String → Option GatherValue) (K : String),
      (∀ k₂ ∈ kinds, (entryOf c ns sel k₂).1 ≠ K) →
      kinds.foldl (gatherStep c ns sel) m K = m K := by
  intro kinds
  induction kinds with
  | nil =>
    intro m K _
    rfl
  | cons k₀ rest ih =>
    intro m K h
    have h₀ : (entryOf c ns sel k₀).1 ≠ K := h k₀ (by simp)
    rw [List.foldl_cons, ih _ _ (fun k₂ hk => h k₂ (by simp [hk]))]
    show (if K = (entryOf c ns sel k₀).1 then _ else m K) = m K
    rw [if_neg (fun hh => h₀ hh.symm)]

/-- Every kind in the requested list ends up stored under its own key with its
own value, regardless of position and of the other kinds. -/
lemma gather_foldl_mem (c : Cluster) (ns sel : String) :
    ∀ (kinds : List String) (m : String → Option GatherValue) (k : String),
      k ∈ kinds →
      kinds.foldl (gatherStep c ns sel) m (entryOf c ns sel k).1
        = some (entryOf c ns sel k).2 := by
  intro kinds
  induction kinds with
  | nil =>
    intro m k hk
    cases hk
  | cons k₀ rest ih =>
    intro m k hk
    by_cases hr : k ∈ rest
    · rw [List.foldl_cons]
      exact ih _ k hr
    · have hk0 : k = k₀ := by
        rcases List.mem_cons.mp hk with h | h
        · exact h
        · exact absurd h hr
      subst hk0
      have hun := gather_foldl_untouched c ns sel rest (gatherStep c ns sel m k)
        (entryOf c ns sel k).1
        (fun k₂ hk₂ heq => hr ((entryOf_fst_inj c ns sel heq) ▸ hk₂))
      rw [List.foldl_cons, hun]
      show (if (entryOf c ns sel k).1 = (entryOf c ns sel k).1 then _ else _) = _
      rw [if_pos rfl]

/-- The only `secrets` collections `entryOf` can produce are redacted ones. -/
lemma entryOf_secrets_redacted (c : Cluster) (ns sel k : String)
    {items : List SecretItem}
    (h : (entryOf c ns sel k).2 = .secrets items) :
    ∀ it ∈ items, it.data = [] ∧ it.stringData = [] := by
  unfold entryOf at h
  split_ifs at h
  · cases hc : c.listPods ns sel <;> simp [hc] at h
  · cases hc : c.listDeployments ns sel <;> simp [hc] at h
  · cases hc : c.listServices ns sel <;> simp [hc] at h
  · cases hc : c.listConfigMaps ns sel <;> simp [hc] at h
  · cases hc : c.listSecrets ns sel with
    | ok xs =>
      simp [hc] at h
      intro it hit
      rw [← h] at hit
      obtain ⟨a, _, rfl⟩ := List.mem_map.mp hit
      exact ⟨rfl, rfl⟩
    | error e => simp [hc] at h
  · cases hc : c.listEvents ns sel <;> simp [hc] at h
  · cases hc : c.listReplicaSets ns sel <;> simp [hc] at h

/-- Any `secrets` collection found anywhere in the final resources map is
fully redacted. -/
lemma gather_foldl_secrets (c : Cluster) (ns sel : String) :
    ∀ (kinds : List String) (m : String → Option GatherValue),
      (∀ key items, m key = some (.secrets items) →
        ∀ it ∈ items, it.data = [] ∧ it.stringData = []) →
      ∀ key items,
        kinds.foldl (gatherStep c ns sel) m key = some (.secrets items) →
        ∀ it ∈ items, it.data = [] ∧ it.stringData = [] := by
  intro kinds
  induction kinds with
  | nil =>
    intro m hm key items hkey
    exact hm key items hkey
  | cons k₀ rest ih =>
    intro m hm key items hkey
    rw [List.foldl_cons] at hkey
    refine ih _ ?_ key items hkey
    intro key₂ items₂ hkey₂
    by_cases hK : key₂ = (entryOf c ns sel k₀).1
    · have : some (entryOf c ns sel k₀).2 = some (GatherValue.secrets items₂) := by
        rw [← hkey₂]
        show _ = (if key₂ = (entryOf c ns sel k₀).1 then _ else _)
        rw [if_pos hK]
      exact entryOf_secrets_redacted c ns sel k₀ (Option.some.inj this)
    · have : m key₂ = some (.secrets items₂) := by
        rw [← hkey₂]
        show m key₂ = (if key₂ = (entryOf c ns sel k₀).1 then _ else _)
        rw [if_neg hK]
      exact hm key₂ items₂ this

/-- Unrecognized kinds fall through to the `default` arm of the switch. -/
lemma entryOf_unsupported (c : Cluster) (ns sel k : String)
    (h : k ∉ supportedKinds) :
    entryOf c ns sel k
      = (k ++ "_error", .errText ("unsupported resource type: " ++ k)) := by
  unfold entryOf
  split_ifs with h1 h2 h3 h4 h5 h6 h7
  · subst h1
    simp [supportedKinds] at h
  · subst h2
    simp [supportedKinds] at h
  · subst h3
    simp [supportedKinds] at h
  · subst h4
    simp [supportedKinds] at h
  · subst h5
    simp [supportedKinds] at h
  · subst h6
    simp [supportedKinds] at h
  · subst h7
    simp [supportedKinds] at h
  · rfl

/-! ## C1: unconditional secret redaction -/

/-- C1: for every gather call whose requested kinds include "secrets", every
secret collection placed into the returned result holds only items whose
`Data` and `StringData` fields are empty — for all clusters, namespaces and
label filters, with no parameter able to disable the redaction; moreover a
successful secret listing is stored as exactly the redacted collection. -/
theorem secrets_redaction_unconditional
    (c : Cluster) (kinds : List String) (namespaceArg sel : String)
    (hmem : "secrets" ∈ kinds) :
    (∀ items,
      (GatherResources c kinds namespaceArg sel).1.resources "secrets"
          = some (.secrets items) →
        ∀ it ∈ items, it.data = [] ∧ it.stringData = []) ∧
    (∀ xs,
      c.listSecrets (if namespaceArg = "" then "default" else namespaceArg) sel
          = .ok xs →
        (GatherResources c kinds namespaceArg sel).1.resources "secrets"
          = some (.secrets (xs.map redactSecret))) := by
  constructor
  · intro items hres
    refine gather_foldl_secrets c _ sel kinds (fun _ => none) ?_ "secrets" items hres
    intro key items' hkey
    exact absurd hkey (by simp)
  · intro xs hxs
    have hentry : entryOf c (if namespaceArg = "" then "default" else namespaceArg)
        sel "secrets" = ("secrets", .secrets (xs.map redactSecret)) := by
      simp [entryOf, hxs]
    have := gather_foldl_mem c
      (if namespaceArg = "" then "default" else namespaceArg) sel kinds
      (fun _ => none) "secrets" hmem
    rw [hentry] at this
    exact this

/-- Witness for C1: a gather over kinds `["secrets", "pods"]` on a cluster with
a non-empty secret stores the redacted collection, whose single item has empty
payload fields. -/
theorem secrets_redaction_unconditional_witness :
    ("secrets" ∈ (["secrets", "pods"] : List String)) ∧
    sampleSecret.data = [("password", "hunter2")] ∧
    ((GatherResources sampleCluster ["secrets", "pods"] "" "").1.resources "secrets"
      = some (.secrets [redactSecret sampleSecret])) ∧
    (∀ it ∈ [redactSecret sampleSecret], it.data = [] ∧ it.stringData = []) := by
  have hmem : "secrets" ∈ (["secrets", "pods"] : List String) := by decide
  have h := secrets_redaction_unconditional sampleCluster ["secrets", "pods"] "" "" hmem
  have hok : sampleCluster.listSecrets "default" "" = .ok [sampleSecret] := rfl
  exact ⟨hmem, rfl, h.2 [sampleSecret] hok, h.1 [redactSecret sampleSecret]
    (h.2 [sampleSecret] hok)⟩

/-! ## C2: per-kind isolation of the gatherer -/

/-- C2: every requested kind is processed independently: it is stored under
its own key (the kind itself, or `<kind>_error` carrying the error text), an
unrecognized kind is stored under `<kind>_error` with the unsupported-type
message, the position of the kind in the request and the outcomes of the other
kinds are irrelevant, and the whole call never returns a Go error. -/
theorem gather_per_kind_isolation
    (c : Cluster) (kinds : List String) (namespaceArg sel : String) (k : String)
    (hk : k ∈ kinds) :
    (GatherResources c kinds namespaceArg sel).2 = none ∧
    ((GatherResources c kinds namespaceArg sel).1.resources
        (entryOf c (if namespaceArg = "" then "default" else namespaceArg) sel k).1
      = some (entryOf c (if namespaceArg = "" then "default" else namespaceArg) sel k).2) ∧
    (((entryOf c (if namespaceArg = "" then "default" else namespaceArg) sel k).1 = k
        ∧ k ∈ supportedKinds) ∨
      (entryOf c (if namespaceArg = "" then "default" else namespaceArg) sel k).1
        = k ++ "_error") ∧
    (k ∉ supportedKinds →
      entryOf c (if namespaceArg = "" then "default" else namespaceArg) sel k
        = (k ++ "_error", .errText ("unsupported resource type: " ++ k))) := by
  refine ⟨rfl, ?_, entryOf_fst c _ sel k, entryOf_unsupported c _ sel k⟩
  exact gather_foldl_mem c _ sel kinds (fun _ => none) k hk

/-- Witness for C2: kinds `["pods", "bogus", "secrets"]` with a failing pod
listing — the failure lands under "pods_error", the unrecognized kind under
"bogus_error", and the sibling secrets kind still succeeds. -/
theorem gather_per_kind_isolation_witness :
    ("bogus" ∈ (["pods", "bogus", "secrets"] : List String)) ∧
    ((GatherResources failingPodsCluster ["pods", "bogus", "secrets"] "" "").1.resources
        "bogus_error" = some (.errText "unsupported resource type: bogus")) ∧
    ((GatherResources failingPodsCluster ["pods", "bogus", "secrets"] "" "").1.resources
        "pods_error" = some (.errText "connection refused")) ∧
    ((GatherResources failingPodsCluster ["pods", "bogus", "secrets"] "" "").1.resources
        "secrets" = some (.secrets [redactSecret sampleSecret])) ∧
    (GatherResources failingPodsCluster ["pods", "bogus", "secrets"] "" "").2 = none := by
  have hmem : "bogus" ∈ (["pods", "bogus", "secrets"] : List String) := by decide
  have h := gather_per_kind_isolation failingPodsCluster ["pods", "bogus", "secrets"]
    "" "" "bogus" hmem
  have hb : entryOf failingPodsCluster "default" "" "bogus"
      = ("bogus_error", .errText "unsupported resource type: bogus") :=
    h.2.2.2 (by decide)
  refine ⟨hmem, ?_, by decide, by decide, h.1⟩
  have hres := h.2.1
  rw [show (if ("" : String) = "" then "default" else "") = "default" from rfl,
    hb] at hres
  exact hres

/-! ## Helper lemmas about `ExecuteTool` and its handlers -/

/-- `getPodHealth` pairs an error result exactly with a non-nil Go error. -/
lemma getPodHealth_isError_iff (m : MCPSvc) (args : List (String × Json)) :
    (getPodHealth m args).1.isError = true ↔ ((getPodHealth m args).2).isSome := by
  unfold getPodHealth
  cases m.k8s with
  | none => simp [k8sUnavailableResult]
  | some k8s => simp [GatherResources]

/-- `getDeploymentStatus` pairs an error result exactly with a non-nil Go error. -/
lemma getDeploymentStatus_isError_iff (m : MCPSvc) (args : List (String × Json)) :
    (getDeploymentStatus m args).1.isError = true
      ↔ ((getDeploymentStatus m args).2).isSome := by
  unfold getDeploymentStatus
  cases m.k8s with
  | none => simp [k8sUnavailableResult]
  | some k8s => simp [GatherResources]

/-- `getServiceEndpoints` pairs an error result exactly with a non-nil Go error. -/
lemma getServiceEndpoints_isError_iff (m : MCPSvc) (args : List (String × Json)) :
    (getServiceEndpoints m args).1.isError = true
      ↔ ((getServiceEndpoints m args).2).isSome := by
  unfold getServiceEndpoints
  cases m.k8s with
  | none => simp [k8sUnavailableResult]
  | some k8s => simp [GatherResources]

/-- `getRecentEvents` pairs an error result exactly with a non-nil Go error. -/
lemma getRecentEvents_isError_iff (m : MCPSvc) (args : List (String × Json)) :
    (getRecentEvents m args).1.isError = true
      ↔ ((getRecentEvents m args).2).isSome := by
  unfold getRecentEvents
  cases m.k8s with
  | none => simp [k8sUnavailableResult]
  | some k8s => simp [GatherResources]

/-- The log tool handler pairs an error result exactly with a non-nil Go error. -/
lemma getPodLogsTool_isError_iff (m : MCPSvc) (args : List (String × Json)) :
    (getPodLogsTool m args).1.isError = true
      ↔ ((getPodLogsTool m args).2).isSome := by
  simp only [getPodLogsTool]
  split_ifs with hp
  · simp
  · cases m.k8s with
    | none => simp [k8sUnavailableResult]
    | some k8s =>
      unfold GetPodLogs
      cases hc : k8s.openLogStream (getStringParam args "namespace" "default")
          (getStringParam args "podName" "") (getStringParam args "containerName" "")
          (if getIntParam args "lines" 100 > 0 then some (getIntParam args "lines" 100)
           else none) <;>
        simp [hc]

/-- Any handler produced by the dispatch switch is one of the five concrete
tool handlers. -/
lemma dispatch_cases (name : String)
    (hdl : MCPSvc → List (String × Json) → ToolResult × Option String)
    (h : dispatch name = some hdl) :
    hdl = getPodHealth ∨ hdl = getDeploymentStatus ∨ hdl = getServiceEndpoints ∨
      hdl = getRecentEvents ∨ hdl = getPodLogsTool := by
  unfold dispatch at h
  split_ifs at h <;> simp_all

/-- `ExecuteTool` returns an error result exactly when it returns a non-nil
Go error: the orchestrator's `err != nil` test and the result's `isError`
flag always agree. -/
lemma executeTool_isError_iff (m : MCPSvc) (req : ToolRequest) :
    (ExecuteTool m req).1.isError = true ↔ ((ExecuteTool m req).2).isSome := by
  unfold ExecuteTool
  cases hl : lookupTool registeredTools req.name with
  | none => simp
  | some t =>
    cases hd : dispatch req.name with
    | none => simp
    | some hdl =>
      rcases dispatch_cases req.name hdl hd with rfl | rfl | rfl | rfl | rfl
      · exact getPodHealth_isError_iff m req.arguments
      · exact getDeploymentStatus_isError_iff m req.arguments
      · exact getServiceEndpoints_isError_iff m req.arguments
      · exact getRecentEvents_isError_iff m req.arguments
      · exact getPodLogsTool_isError_iff m req.arguments

/-! ## C8: unknown tool names -/

/-- C8: for every tool name absent from the catalog, `ExecuteTool` returns an
error outcome whose sole content block's text contains the attempted name
(it is exactly "Unknown tool: <name>"), together with a returned — never
raised — Go error. -/
theorem executeTool_unknown_tool (m : MCPSvc) (name : String)
    (args : List (String × Json))
    (h : lookupTool registeredTools name = none) :
    (ExecuteTool m ⟨name, args⟩).1.isError = true ∧
    (ExecuteTool m ⟨name, args⟩).1.content
      = [⟨"text", "Unknown tool: " ++ name⟩] ∧
    (∃ pre suf, "Unknown tool: " ++ name = pre ++ name ++ suf) ∧
    (ExecuteTool m ⟨name, args⟩).2 = some ("unknown tool: " ++ name) := by
  unfold ExecuteTool
  rw [h]
  exact ⟨rfl, rfl, ⟨"Unknown tool: ", "", (String.append_empty _).symm⟩, rfl⟩

/-- Witness for C8 at the unknown name "does_not_exist". -/
theorem executeTool_unknown_tool_witness :
    lookupTool registeredTools "does_not_exist" = none ∧
    (ExecuteTool ⟨some sampleCluster⟩ ⟨"does_not_exist", []⟩).1.isError = true ∧
    (ExecuteTool ⟨some sampleCluster⟩ ⟨"does_not_exist", []⟩).1.content
      = [⟨"text", "Unknown tool: does_not_exist"⟩] ∧
    (ExecuteTool ⟨some sampleCluster⟩ ⟨"does_not_exist", []⟩).2
      = some "unknown tool: does_not_exist" := by
  have h : lookupTool registeredTools "does_not_exist" = none := by decide
  have hr := executeTool_unknown_tool ⟨some sampleCluster⟩ "does_not_exist" [] h
  exact ⟨h, hr.1, hr.2.1, hr.2.2.2⟩

/-! ## C10: every registered tool has a handler -/

/-- C10: whenever the catalog lookup succeeds, the dispatch switch yields one
of the five concrete tool handlers and `ExecuteTool` runs it — the
"registered but not implemented" default arm is unreachable. -/
theorem registered_tools_all_dispatch (name : String) (t : Tool)
    (h : lookupTool registeredTools name = some t) :
    ∃ hdl, dispatch name = some hdl ∧
      (hdl = getPodHealth ∨ hdl = getDeploymentStatus ∨ hdl = getServiceEndpoints ∨
        hdl = getRecentEvents ∨ hdl = getPodLogsTool) ∧
      ∀ (m : MCPSvc) (args : List (String × Json)),
        ExecuteTool m ⟨name, args⟩ = hdl m args := by
  by_cases h1 : ("get_pod_health" : String) = name
  · subst h1
    exact ⟨getPodHealth, rfl, Or.inl rfl, fun m args => rfl⟩
  · by_cases h2 : ("get_deployment_status" : String) = name
    · subst h2
      exact ⟨getDeploymentStatus, rfl, Or.inr (Or.inl rfl), fun m args => rfl⟩
    · by_cases h3 : ("get_service_endpoints" : String) = name
      · subst h3
        exact ⟨getServiceEndpoints, rfl, Or.inr (Or.inr (Or.inl rfl)),
          fun m args => rfl⟩
      · by_cases h4 : ("get_recent_events" : String) = name
        · subst h4
          exact ⟨getRecentEvents, rfl, Or.inr (Or.inr (Or.inr (Or.inl rfl))),
            fun m args => rfl⟩
        · by_cases h5 : ("get_pod_logs" : String) = name
          · subst h5
            exact ⟨getPodLogsTool, rfl, Or.inr (Or.inr (Or.inr (Or.inr rfl))),
              fun m args => rfl⟩
          · exfalso
            have : lookupTool registeredTools name = none := by
              simp [lookupTool, registeredTools, h1, h2, h3, h4, h5]
            rw [this] at h
            cases h

/-- Witness for C10 at the registered name "get_pod_logs". -/
theorem registered_tools_all_dispatch_witness :
    (∃ t, lookupTool registeredTools "get_pod_logs" = some t) ∧
    (∃ hdl, dispatch "get_pod_logs" = some hdl ∧
      ∀ (m : MCPSvc) (args : List (String × Json)),
        ExecuteTool m ⟨"get_pod_logs", args⟩ = hdl m args) := by
  have hl : lookupTool registeredTools "get_pod_logs"
      = some (registeredTools.get ⟨4, by decide⟩).2 := by decide
  obtain ⟨hdl, hd, _, hrun⟩ :=
    registered_tools_all_dispatch "get_pod_logs" _ hl
  exact ⟨⟨_, hl⟩, hdl, hd, hrun⟩

/-! ## C9: log retrieval errors and the tail-line limit -/

/-- C9: a failed log retrieval surfaces as a single descriptive error and no
log text at all (never partial output mixed with an error); a positive
lineLimit is passed to the API as a tail limit — yielding exactly the last N
lines on a tail-respecting backend — and a lineLimit of 0 or less applies no
limit. -/
theorem getPodLogs_failure_and_tail
    (c : Cluster) (ns pod container : String) (lines : Int) :
    (∀ e, (GetPodLogs c ns pod container lines).2 = some e →
      (GetPodLogs c ns pod container lines).1 = "" ∧
      ∃ cause, e = "failed to get pod logs: " ++ cause ∧
        c.openLogStream ns pod container
          (if lines > 0 then some lines else none) = .error cause) ∧
    (∀ chunks,
      c.openLogStream ns pod container (if lines > 0 then some lines else none)
          = .ok chunks →
      GetPodLogs c ns pod container lines = (String.join chunks, none)) ∧
    (∀ logLines,
      GetPodLogs (tailServingCluster logLines) ns pod container lines
        = (String.join
            (if lines > 0 then logLines.drop (logLines.length - lines.toNat)
             else logLines),
           none)) := by
  refine ⟨?_, ?_, ?_⟩
  · intro e
    simp only [GetPodLogs]
    cases hc : c.openLogStream ns pod container
        (if lines > 0 then some lines else none) with
    | error cause =>
      intro he
      exact ⟨rfl, cause, (Option.some.inj he).symm, rfl⟩
    | ok chunks =>
      intro he
      simp at he
  · intro chunks hc
    simp only [GetPodLogs]
    rw [hc]
  · intro logLines
    simp only [GetPodLogs, tailServingCluster]
    by_cases hl : lines > 0 <;> simp [hl, tailLogBackend]

/-- Witness for C9: a failing stream yields `("", error)` with the cause
embedded; a tail-respecting backend over four lines with lineLimit 2 yields
the last two lines, and with lineLimit 0 the whole log. -/
theorem getPodLogs_failure_and_tail_witness :
    GetPodLogs failingLogCluster "default" "web" "" 100
      = ("", some "failed to get pod logs: pods \"web\" not found") ∧
    GetPodLogs (tailServingCluster ["l1\n", "l2\n", "l3\n", "l4\n"]) "default" "web" "" 2
      = ("l3\nl4\n", none) ∧
    GetPodLogs (tailServingCluster ["l1\n", "l2\n", "l3\n", "l4\n"]) "default" "web" "" 0
      = ("l1\nl2\nl3\nl4\n", none) := by
  have h1 := (getPodLogs_failure_and_tail failingLogCluster "default" "web" "" 100).1
    "failed to get pod logs: pods \"web\" not found" rfl
  have h2 := (getPodLogs_failure_and_tail
    (tailServingCluster ["l1\n", "l2\n", "l3\n", "l4\n"]) "default" "web" "" 2).2.2
    ["l1\n", "l2\n", "l3\n", "l4\n"]
  have h3 := (getPodLogs_failure_and_tail
    (tailServingCluster ["l1\n", "l2\n", "l3\n", "l4\n"]) "default" "web" "" 0).2.2
    ["l1\n", "l2\n", "l3\n", "l4\n"]
  refine ⟨?_, ?_, ?_⟩
  · unfold GetPodLogs
    rfl
  · rw [h2]
    rfl
  · rw [h3]
    rfl

/-! ## Helper lemmas: evaluation of `QueryWithMCP` along each path -/

/-- Parse failure in every stage: the original text is the direct answer. -/
lemma queryWithMCP_fallback (s : AIService) (mcpSvc : MCPSvc) (query : String)
    (parts : List String) (txt : String)
    (hm : s.mcp = some mcpSvc) (hf : s.gemini.firstCall query = .ok parts)
    (hne : parts.isEmpty = false)
    (hp : parseDecision goUnmarshal (joinParts parts) = .fallback txt) :
    QueryWithMCP s query = .ok ⟨txt, false, "", "", ""⟩ := by
  unfold QueryWithMCP
  rw [hm, hf]
  simp only [hne, hp, Bool.false_eq_true, if_false]

/-- A parsed decision whose action is not "use_tool" yields its response field
directly. -/
lemma queryWithMCP_direct (s : AIService) (mcpSvc : MCPSvc) (query : String)
    (parts : List String) (a : AIAction)
    (hm : s.mcp = some mcpSvc) (hf : s.gemini.firstCall query = .ok parts)
    (hne : parts.isEmpty = false)
    (hp : parseDecision goUnmarshal (joinParts parts) = .parsed a)
    (ha : a.action ≠ "use_tool") :
    QueryWithMCP s query = .ok ⟨a.response, false, "", "", ""⟩ := by
  unfold QueryWithMCP
  rw [hm, hf]
  simp only [hne, hp, Bool.false_eq_true, if_false, if_neg ha]

/-- A tool-execution error still completes the query with an error response. -/
lemma queryWithMCP_toolError (s : AIService) (mcpSvc : MCPSvc) (query : String)
    (parts : List String) (a : AIAction) (e : String)
    (hm : s.mcp = some mcpSvc) (hf : s.gemini.firstCall query = .ok parts)
    (hne : parts.isEmpty = false)
    (hp : parseDecision goUnmarshal (joinParts parts) = .parsed a)
    (ha : a.action = "use_tool")
    (he : (ExecuteTool mcpSvc ⟨a.tool, a.arguments⟩).2 = some e) :
    QueryWithMCP s query
      = .ok ⟨"Error executing tool " ++ a.tool ++ ": " ++ e, true, a.tool, "", e⟩ := by
  unfold QueryWithMCP
  rw [hm, hf]
  simp only [hne, hp, Bool.false_eq_true, if_false, if_pos ha, he]

/-- A failed analysis call falls back to a message embedding the gathered
text. -/
lemma queryWithMCP_analysisError (s : AIService) (mcpSvc : MCPSvc) (query : String)
    (parts : List String) (a : AIAction) (msg : String)
    (hm : s.mcp = some mcpSvc) (hf : s.gemini.firstCall query = .ok parts)
    (hne : parts.isEmpty = false)
    (hp : parseDecision goUnmarshal (joinParts parts) = .parsed a)
    (ha : a.action = "use_tool")
    (he : (ExecuteTool mcpSvc ⟨a.tool, a.arguments⟩).2 = none)
    (hae : s.gemini.analysisCall query
        (joinToolOutput (ExecuteTool mcpSvc ⟨a.tool, a.arguments⟩).1.content)
      = .error msg) :
    QueryWithMCP s query
      = .ok ⟨"Gathered data but failed to analyze: "
              ++ joinToolOutput (ExecuteTool mcpSvc ⟨a.tool, a.arguments⟩).1.content,
             true, a.tool, "", ""⟩ := by
  unfold QueryWithMCP
  rw [hm, hf]
  simp only [hne, hp, Bool.false_eq_true, if_false, if_pos ha, he, hae]

/-- A successful analysis call yields the joined analysis text with the
gathered text as rawData. -/
lemma queryWithMCP_analysisOk (s : AIService) (mcpSvc : MCPSvc) (query : String)
    (parts : List String) (a : AIAction) (analysisParts : List String)
    (hm : s.mcp = some mcpSvc) (hf : s.gemini.firstCall query = .ok parts)
    (hne : parts.isEmpty = false)
    (hp : parseDecision goUnmarshal (joinParts parts) = .parsed a)
    (ha : a.action = "use_tool")
    (he : (ExecuteTool mcpSvc ⟨a.tool, a.arguments⟩).2 = none)
    (hae : s.gemini.analysisCall query
        (joinToolOutput (ExecuteTool mcpSvc ⟨a.tool, a.arguments⟩).1.content)
      = .ok analysisParts) :
    QueryWithMCP s query
      = .ok ⟨joinParts analysisParts, true, a.tool,
             joinToolOutput (ExecuteTool mcpSvc ⟨a.tool, a.arguments⟩).1.content, ""⟩ := by
  unfold QueryWithMCP
  rw [hm, hf]
  simp only [hne, hp, Bool.false_eq_true, if_false, if_pos ha, he, hae]

/-! ## C3: the parser's fallback stage order -/

/-- C3 counterexample: on `c3Input` the entire text parses as a decision
object (the spec's stage 1), yet the parser returns the zero-valued decision
decoded from the fenced "\x7b\x7d" block instead — the fenced-block extraction
pre-empts the whole-text parse rather than following it. -/
theorem parser_stage_order_counterexample :
    goUnmarshal c3Input = some c3WholeAction ∧
    parseDecision goUnmarshal c3Input = .parsed AIAction.zero ∧
    c3WholeAction.response ≠ AIAction.zero.response := by
  refine ⟨rfl, rfl, ?_⟩
  decide

/-- C3 amended: the parser equals the staged chain in which a closed ```json
fenced block, when present, *replaces* the text before the first parse
attempt (so the whole text is parsed first only when no such fence exists);
the brace-window retry and the verbatim fallback follow in the claimed order,
and the result is always either a parsed decision or the original text
verbatim. -/
theorem parser_fence_preempts_then_brace_fallback
    (unmarshal : String → Option AIAction) (text : String) :
    parseDecision unmarshal text = amendedParseChain unmarshal text ∧
    ((∃ a, parseDecision unmarshal text = .parsed a) ∨
      parseDecision unmarshal text = .fallback text) := by
  constructor
  · simp only [parseDecision, amendedParseChain, braceSpan]
    cases unmarshal (extractFencedJson text) with
    | some a => rfl
    | none =>
      split_ifs with h1 h2
      · rfl
      · rfl
      · rfl
  · simp only [parseDecision]
    cases unmarshal (extractFencedJson text) with
    | some a => exact Or.inl ⟨a, rfl⟩
    | none =>
      split_ifs with h1 h2
      · cases unmarshal (substrChars text (strIndex text "\x7b").toNat
            ((strLastIndex text "\x7d").toNat + 1)) with
        | some a => exact Or.inl ⟨a, rfl⟩
        | none => exact Or.inr rfl
      · exact Or.inr rfl
      · exact Or.inr rfl

/-! ## C4: non-empty answers -/

/-- C4 counterexample: the first model call produces the non-empty text
"\x7b\x7d" — valid JSON matching neither decision shape — and the returned
response is the empty string. -/
theorem orchestrator_empty_response_counterexample :
    (mkSvc "\x7b\x7d" (.ok ["ANALYSIS"])).gemini.firstCall "q" = .ok ["\x7b\x7d"] ∧
    ("\x7b\x7d" : String) ≠ "" ∧
    QueryWithMCP (mkSvc "\x7b\x7d" (.ok ["ANALYSIS"])) "q" = .ok ⟨"", false, "", "", ""⟩ := by
  exact ⟨rfl, by decide, rfl⟩

/-- C4 amended: whenever the first model call succeeds with some text (and the
MCP service is wired), the orchestrator always completes with *some*
`QueryResponse` — no request-level failure — but that response's text may be
empty (valid JSON matching neither shape yields the zero-valued decision's
empty response field; an analysis call succeeding with no candidate content
yields an empty analysis text). -/
theorem orchestrator_always_some_response
    (s : AIService) (mcpSvc : MCPSvc) (query : String) (parts : List String)
    (hm : s.mcp = some mcpSvc) (hf : s.gemini.firstCall query = .ok parts)
    (hne : parts ≠ []) :
    ∃ r, QueryWithMCP s query = Except.ok r := by
  have hne' : parts.isEmpty = false := by
    cases parts with
    | nil => exact absurd rfl hne
    | cons a l => rfl
  cases hp : parseDecision goUnmarshal (joinParts parts) with
  | fallback t => exact ⟨_, queryWithMCP_fallback s mcpSvc query parts t hm hf hne' hp⟩
  | parsed a =>
    by_cases ha : a.action = "use_tool"
    · cases he : (ExecuteTool mcpSvc ⟨a.tool, a.arguments⟩).2 with
      | some e =>
        exact ⟨_, queryWithMCP_toolError s mcpSvc query parts a e hm hf hne' hp ha he⟩
      | none =>
        cases hae : s.gemini.analysisCall query
            (joinToolOutput (ExecuteTool mcpSvc ⟨a.tool, a.arguments⟩).1.content) with
        | error msg =>
          exact ⟨_, queryWithMCP_analysisError s mcpSvc query parts a msg
            hm hf hne' hp ha he hae⟩
        | ok ps =>
          exact ⟨_, queryWithMCP_analysisOk s mcpSvc query parts a ps
            hm hf hne' hp ha he hae⟩
    · exact ⟨_, queryWithMCP_direct s mcpSvc query parts a hm hf hne' hp ha⟩

/-- Witness for the amended C4 at a concrete service. -/
theorem orchestrator_always_some_response_witness :
    ∃ r, QueryWithMCP (mkSvc "\x7b\x7d" (.ok ["ANALYSIS"])) "q" = Except.ok r := by
  exact orchestrator_always_some_response (mkSvc "\x7b\x7d" (.ok ["ANALYSIS"]))
    ⟨some sampleCluster⟩ "q" ["\x7b\x7d"] rfl rfl (by decide)

/-! ## C5: tool-execution errors still complete the query -/

/-- C5: whenever the parsed decision requests a tool and its execution returns
an error (unknown names included), the orchestrator still completes with a
`QueryResponse` carrying `usedTool = true`, the attempted tool name, a
human-readable error message as the response, and the error detail — never a
request-level failure. -/
theorem tool_error_completes_query
    (s : AIService) (mcpSvc : MCPSvc) (query : String) (parts : List String)
    (a : AIAction) (e : String)
    (hm : s.mcp = some mcpSvc) (hf : s.gemini.firstCall query = .ok parts)
    (hne : parts ≠ [])
    (hp : parseDecision goUnmarshal (joinParts parts) = .parsed a)
    (ha : a.action = "use_tool")
    (he : (ExecuteTool mcpSvc ⟨a.tool, a.arguments⟩).2 = some e) :
    QueryWithMCP s query
      = .ok ⟨"Error executing tool " ++ a.tool ++ ": " ++ e, true, a.tool, "", e⟩ := by
  have hne' : parts.isEmpty = false := by
    cases parts with
    | nil => exact absurd rfl hne
    | cons x l => rfl
  exact queryWithMCP_toolError s mcpSvc query parts a e hm hf hne' hp ha he

/-- Witness for C5: the model requests the unknown tool "no_such_tool"; the
query completes with the error response. -/
theorem tool_error_completes_query_witness :
    QueryWithMCP (mkSvc unknownToolText (.ok ["ANALYSIS"])) "q"
      = .ok ⟨"Error executing tool no_such_tool: unknown tool: no_such_tool",
             true, "no_such_tool", "", "unknown tool: no_such_tool"⟩ := by
  exact tool_error_completes_query (mkSvc unknownToolText (.ok ["ANALYSIS"]))
    ⟨some sampleCluster⟩ "q" [unknownToolText]
    ⟨"use_tool", "no_such_tool", [], ""⟩ "unknown tool: no_such_tool"
    rfl rfl (by decide) rfl rfl rfl

/-! ## C6: behavior when the analysis call fails -/

/-- C6 counterexample: when the analysis call errors after a successful tool
run, the returned response is the message "Gathered data but failed to
analyze: <text>" — which is not equal to the raw gathered text itself — and
`rawData` is left empty in that branch. -/
theorem analysis_fallback_counterexample :
    QueryWithMCP (mkSvc useToolText (.error "model down")) "q"
      = .ok ⟨"Gathered data but failed to analyze: " ++ c6ToolOutput,
             true, "get_pod_health", "", ""⟩ ∧
    "Gathered data but failed to analyze: " ++ c6ToolOutput ≠ c6ToolOutput := by
  exact ⟨rfl, by decide⟩

/-- C6 amended: after a successful tool execution, a *failed* analysis call
completes the query with the gathered text embedded in the message "Gathered
data but failed to analyze: ..." (with `rawData` unset), and an analysis call
that succeeds with no candidate content completes it with an *empty* response
(with `rawData` carrying the gathered text) — in neither case does the
request fail. -/
theorem analysis_failure_degrades_not_fails
    (s : AIService) (mcpSvc : MCPSvc) (query : String) (parts : List String)
    (a : AIAction)
    (hm : s.mcp = some mcpSvc) (hf : s.gemini.firstCall query = .ok parts)
    (hne : parts ≠ [])
    (hp : parseDecision goUnmarshal (joinParts parts) = .parsed a)
    (ha : a.action = "use_tool")
    (he : (ExecuteTool mcpSvc ⟨a.tool, a.arguments⟩).2 = none) :
    (∀ msg,
      s.gemini.analysisCall query
          (joinToolOutput (ExecuteTool mcpSvc ⟨a.tool, a.arguments⟩).1.content)
        = .error msg →
      QueryWithMCP s query
        = .ok ⟨"Gathered data but failed to analyze: "
                ++ joinToolOutput (ExecuteTool mcpSvc ⟨a.tool, a.arguments⟩).1.content,
               true, a.tool, "", ""⟩) ∧
    (s.gemini.analysisCall query
          (joinToolOutput (ExecuteTool mcpSvc ⟨a.tool, a.arguments⟩).1.content)
        = .ok [] →
      QueryWithMCP s query
        = .ok ⟨"", true, a.tool,
               joinToolOutput (ExecuteTool mcpSvc ⟨a.tool, a.arguments⟩).1.content,
               ""⟩) := by
  have hne' : parts.isEmpty = false := by
    cases parts with
    | nil => exact absurd rfl hne
    | cons x l => rfl
  constructor
  · intro msg hae
    exact queryWithMCP_analysisError s mcpSvc query parts a msg hm hf hne' hp ha he hae
  · intro hae
    exact queryWithMCP_analysisOk s mcpSvc query parts a [] hm hf hne' hp ha he hae

/-- Witness for the amended C6 at concrete services: both the failing-analysis
branch and the empty-candidate branch. -/
theorem analysis_failure_degrades_not_fails_witness :
    QueryWithMCP (mkSvc useToolText (.error "model down")) "q"
      = .ok ⟨"Gathered data but failed to analyze: " ++ c6ToolOutput,
             true, "get_pod_health", "", ""⟩ ∧
    QueryWithMCP (mkSvc useToolText (.ok [])) "q"
      = .ok ⟨"", true, "get_pod_health", c6ToolOutput, ""⟩ := by
  constructor
  · exact (analysis_failure_degrades_not_fails (mkSvc useToolText (.error "model down"))
      ⟨some sampleCluster⟩ "q" [useToolText] ⟨"use_tool", "get_pod_health", [], ""⟩
      rfl rfl (by decide) rfl rfl rfl).1 "model down" rfl
  · exact (analysis_failure_degrades_not_fails (mkSvc useToolText (.ok []))
      ⟨some sampleCluster⟩ "q" [useToolText] ⟨"use_tool", "get_pod_health", [], ""⟩
      rfl rfl (by decide) rfl rfl rfl).2 rfl

/-! ## C7: error outcomes and the second model call -/

/-- C7 counterexample: the outcome of executing "no_such_tool" has
`isError = true`, and the orchestrator — whose analysis call would answer
"ANALYSIS SHOULD NOT APPEAR" — returns the error message instead: the
error outcome's content is never fed into a second model call. -/
theorem isError_not_fed_to_analysis_counterexample :
    (ExecuteTool ⟨some sampleCluster⟩ ⟨"no_such_tool", []⟩).1.isError = true ∧
    QueryWithMCP (mkSvc unknownToolText (.ok ["ANALYSIS SHOULD NOT APPEAR"])) "q"
      = .ok ⟨"Error executing tool no_such_tool: unknown tool: no_such_tool",
             true, "no_such_tool", "", "unknown tool: no_such_tool"⟩ ∧
    ("Error executing tool no_such_tool: unknown tool: no_such_tool" : String)
      ≠ "ANALYSIS SHOULD NOT APPEAR" := by
  exact ⟨rfl, rfl, by decide⟩

/-- C7 amended: an error outcome never aborts the query — but it is not fed
into the second model call either: every `isError` outcome of `ExecuteTool`
is accompanied by a non-nil Go error, and on a non-nil error the orchestrator
returns the error-message `QueryResponse` directly, skipping the analysis
call. -/
theorem isError_short_circuits_before_analysis :
    (∀ (m : MCPSvc) (req : ToolRequest),
      (ExecuteTool m req).1.isError = true ↔ ((ExecuteTool m req).2).isSome) ∧
    (∀ (s : AIService) (mcpSvc : MCPSvc) (query : String) (parts : List String)
        (a : AIAction) (e : String),
      s.mcp = some mcpSvc → s.gemini.firstCall query = .ok parts →
      parts.isEmpty = false →
      parseDecision goUnmarshal (joinParts parts) = .parsed a →
      a.action = "use_tool" →
      (ExecuteTool mcpSvc ⟨a.tool, a.arguments⟩).2 = some e →
      QueryWithMCP s query
        = .ok ⟨"Error executing tool " ++ a.tool ++ ": " ++ e, true, a.tool, "", e⟩) := by
  constructor
  · exact executeTool_isError_iff
  · intro s mcpSvc query parts a e hm hf hne hp ha he
    exact queryWithMCP_toolError s mcpSvc query parts a e hm hf hne hp ha he

/-- Witness for the amended C7 at the unknown tool "no_such_tool". -/
theorem isError_short_circuits_before_analysis_witness :
    ((ExecuteTool ⟨some sampleCluster⟩ ⟨"no_such_tool", []⟩).1.isError = true ↔
      ((ExecuteTool ⟨some sampleCluster⟩ ⟨"no_such_tool", []⟩).2).isSome) ∧
    QueryWithMCP (mkSvc unknownToolText (.ok ["ANALYSIS SHOULD NOT APPEAR"])) "q"
      = .ok ⟨"Error executing tool no_such_tool: unknown tool: no_such_tool",
             true, "no_such_tool", "", "unknown tool: no_such_tool"⟩ := by
  constructor
  · exact isError_short_circuits_before_analysis.1 ⟨some sampleCluster⟩
      ⟨"no_such_tool", []⟩
  · exact isError_short_circuits_before_analysis.2
      (mkSvc unknownToolText (.ok ["ANALYSIS SHOULD NOT APPEAR"]))
      ⟨some sampleCluster⟩ "q" [unknownToolText]
      ⟨"use_tool", "no_such_tool", [], ""⟩ "unknown tool: no_such_tool"
      rfl rfl rfl rfl rfl rfl

end KubeSherlock
